import Mathlib

/-! # Observer.cpp: the Logger subject and its three observers

A shallow embedding of `src/Observer.cpp`.

* An `Observer*` is an address (`Ptr`, a natural number, `0` being `nullptr`).
  Two pointers are equal exactly when the addresses are equal, which is the
  comparison `std::remove` performs on the vector elements.
* The objects the pointers refer to live in a `Heap`, a map from addresses to
  the dynamic type of the object together with its fields.  None of the
  handlers writes to an observer object, so the heap is never updated.  The
  caller keeps every registered object alive (the Logger does not own them),
  hence the heap is a total map.
* `std::vector<Observer*>` is a `List Ptr`; positions are list indices.
* The outside world (`World`) is the text written so far to `std::cout` and
  `std::cerr`, what every path leads to (a regular file, known by its canonical
  name so that two paths can share it, a device that keeps nothing, or one of
  the two console streams), the content of every regular file, the set of
  paths that `std::ofstream(path, std::ios::app)` manages to open, the set of
  paths on which an insertion into the open stream goes through, and a ghost
  trace of the virtual calls and writes in the order in which they happen.
* The handlers test `is_open()` and nothing else: the stream is never looked at
  after `<<`, so an insertion that does not go through passes unnoticed.
* `std::string` is `String`; `std::endl` writes the character `\n`.
-/

namespace Observer

/-- An `Observer*`: an address, `0` for `nullptr`. -/
abbrev Ptr := Nat

/-- The null pointer. -/
abbrev nullptr : Ptr := 0

/-- The three virtual handler slots of `class Observer`. -/
inductive Slot where
  | onWarning
  | onError
  | onFatalError
  deriving DecidableEq, Repr

/-- One observable happening, recorded in program order. The insertions of
one statement (`stream << a << b << std::endl`) are one entry. -/
inductive Event where
  /-- a virtual call `observer->slot(message)` made by the Logger -/
  | call (observer : Ptr) (slot : Slot) (message : String)
  /-- text inserted into `std::cout` -/
  | cout (text : String)
  /-- text inserted into `std::cerr` -/
  | cerr (text : String)
  /-- text inserted into a file stream that was opened on `path` -/
  | file (path : String) (text : String)
  deriving DecidableEq, Repr

/-- What a path leads to. -/
inductive Target where
  /-- a regular file, known by its canonical name; it may not exist yet -/
  | regular (file : String)
  /-- a device that takes what is written and keeps none of it (`/dev/null`) -/
  | discard
  /-- the standard output of the process (`/dev/stdout`) -/
  | stdout
  /-- the standard error of the process (`/dev/stderr`) -/
  | stderr
  deriving DecidableEq, Repr

/-- The state outside the program. -/
structure World where
  /-- everything written to `std::cout` so far -/
  stdout : String
  /-- everything written to `std::cerr` so far -/
  stderr : String
  /-- what each path leads to -/
  target : String → Target
  /-- content of each regular file by canonical name, `none` when it does not
  exist -/
  store : String → Option String
  /-- whether `std::ofstream(path, std::ios::app)` ends up open -/
  canOpen : String → Bool
  /-- whether an insertion into a stream that is open on the path goes through
  (it does not on a full disk or on `/dev/full`) -/
  writeOk : String → Bool
  /-- ghost trace of calls and writes, oldest first -/
  trace : List Event

/-- Content of the file at a path: that of the regular file the path leads
to, nothing for the device that keeps nothing, and `none` where there is no
file (no such regular file, or a console stream). -/
def World.files (w : World) (path : String) : Option String :=
  match w.target path with
  | .regular file => w.store file
  | .discard => some ""
  | .stdout => none
  | .stderr => none

/-- The insertion `std::cout << text` (the flush of `std::endl` is invisible). -/
def World.writeStdout (w : World) (text : String) : World :=
  { w with stdout := w.stdout ++ text, trace := w.trace ++ [Event.cout text] }

/-- The insertion `std::cerr << text`. -/
def World.writeStderr (w : World) (text : String) : World :=
  { w with stderr := w.stderr ++ text, trace := w.trace ++ [Event.cerr text] }

/-- What `std::ofstream file(path, std::ios::app)` does when the open
succeeds: a regular file that was absent now exists, empty. -/
def World.openAppend (w : World) (path : String) : World :=
  match w.target path with
  | .regular file =>
    { w with store := fun k => if k = file then some ((w.store file).getD "") else w.store k }
  | _ => w

/-- The insertion `file << text` into the stream open on `path`. When it goes
through, the text lands at the end of what the path leads to; when it does
not, nothing is written, and nothing tells the caller. -/
def World.writeFile (w : World) (path text : String) : World :=
  if w.writeOk path then
    match w.target path with
    | .regular file =>
      { w with
        store := fun k => if k = file then some ((w.store file).getD "" ++ text) else w.store k,
        trace := w.trace ++ [Event.file path text] }
    | .discard => { w with trace := w.trace ++ [Event.file path text] }
    | .stdout =>
      { w with stdout := w.stdout ++ text, trace := w.trace ++ [Event.file path text] }
    | .stderr =>
      { w with stderr := w.stderr ++ text, trace := w.trace ++ [Event.file path text] }
  else
    { w with trace := w.trace ++ [Event.file path text] }

/-- The dynamic type of an observer object, with its data members. -/
inductive Obj where
  /-- a plain `Observer` (the base class is not abstract) -/
  | base
  /-- a `WarningObserver` -/
  | warningObserver
  /-- an `ErrorObserver` with its `filePath_` -/
  | errorObserver (filePath_ : String)
  /-- a `FatalErrorObserver` with its `filePath_` -/
  | fatalErrorObserver (filePath_ : String)
  deriving DecidableEq, Repr

/-- The objects behind the addresses. -/
abbrev Heap := Ptr → Obj

/-- Virtual `onWarning`: overridden by `WarningObserver` only. -/
def Obj.onWarning (self : Obj) (message : String) (w : World) : World :=
  match self with
  | .warningObserver => w.writeStdout ("Warning: " ++ message ++ "\n")
  | _ => w

/-- Virtual `onError`: overridden by `ErrorObserver` only. -/
def Obj.onError (self : Obj) (message : String) (w : World) : World :=
  match self with
  | .errorObserver filePath_ =>
    if w.canOpen filePath_ then
      (w.openAppend filePath_).writeFile filePath_ ("Error: " ++ message ++ "\n")
    else
      w.writeStderr ("Failed to open file: " ++ filePath_ ++ "\n")
  | _ => w

/-- Virtual `onFatalError`: overridden by `FatalErrorObserver` only. -/
def Obj.onFatalError (self : Obj) (message : String) (w : World) : World :=
  match self with
  | .fatalErrorObserver filePath_ =>
    let w1 := w.writeStderr ("Fatal Error: " ++ message ++ "\n")
    if w1.canOpen filePath_ then
      (w1.openAppend filePath_).writeFile filePath_ ("Fatal Error: " ++ message ++ "\n")
    else
      w1.writeStderr ("Failed to open file: " ++ filePath_ ++ "\n")
  | _ => w

/-- Virtual dispatch on a slot. -/
def Obj.handle (self : Obj) (slot : Slot) (message : String) (w : World) : World :=
  match slot with
  | .onWarning => self.onWarning message w
  | .onError => self.onError message w
  | .onFatalError => self.onFatalError message w

/-- The call `observer->slot(message)` as the Logger makes it: the call is
recorded, then the handler of the dynamic type runs. -/
def invoke (heap : Heap) (observer : Ptr) (slot : Slot) (message : String) (w : World) : World :=
  (heap observer).handle slot message { w with trace := w.trace ++ [Event.call observer slot message] }

/-! ## The algorithms behind `removeObserver` -/

/-- The loop `for (; first != last; ++first)` of `std::find`, by the distance
`last - first` that is left: stops at the first position holding `value`,
and at `last` when there is none. -/
def stdFindLoop (v : List Ptr) (value : Ptr) : Nat → Nat → Nat
  | 0, first => first
  | dist + 1, first =>
    if v.getD first nullptr = value then first
    else stdFindLoop v value dist (first + 1)

/-- The algorithm `std::find(first, last, value)` on the positions of `v`: the first
position in `[first, last)` holding `value`, or `last`. -/
def stdFind (v : List Ptr) (value : Ptr) (first last : Nat) : Nat :=
  stdFindLoop v value (last - first) first

/-- The compaction loop `for (; first != last; ++first)` of `std::remove`, by
the distance `last - first` that is left: `first` reads, `result` writes, and
every element different from `value` is moved down to `result`. Returns the
buffer and the final `result`. -/
def removeLoop (v : List Ptr) (value : Ptr) : Nat → Nat → Nat → List Ptr × Nat
  | 0, result, _ => (v, result)
  | dist + 1, result, first =>
    if v.getD first nullptr ≠ value then
      removeLoop (v.set result (v.getD first nullptr)) value dist (result + 1) (first + 1)
    else
      removeLoop v value dist result (first + 1)

/-- The algorithm `std::remove(first, last, value)`: find the first match, then compact
what follows it. Returns the buffer and the new logical end. -/
def stdRemove (v : List Ptr) (value : Ptr) (first last : Nat) : List Ptr × Nat :=
  let found := stdFind v value first last
  if found = last then (v, found)
  else removeLoop v value (last - (found + 1)) found (found + 1)

/-- The member `vector::erase(first, last)`: drop the positions `[first, last)`. -/
def vectorErase (v : List Ptr) (first last : Nat) : List Ptr :=
  v.take first ++ v.drop last

/-! ## The subject -/

/-- The `class Logger`: its only member is the vector of observers. -/
structure Logger where
  /-- the registered observers -/
  observers_ : List Ptr
  deriving DecidableEq, Repr

/-- Method `Logger::addObserver`: `observers_.push_back(observer)`. -/
def Logger.addObserver (self : Logger) (observer : Ptr) : Logger :=
  { observers_ := self.observers_.concat observer }

/-- Method `Logger::removeObserver`: the erase-remove idiom,
`observers_.erase(std::remove(begin, end, observer), end)`. -/
def Logger.removeObserver (self : Logger) (observer : Ptr) : Logger :=
  let r := stdRemove self.observers_ observer 0 self.observers_.length
  { observers_ := vectorErase r.1 r.2 r.1.length }

/-- The range-for loop shared by the three notification methods: each entry
in turn, the call being made only when the pointer is not null. -/
def notifyLoop (heap : Heap) (slot : Slot) (message : String) : List Ptr → World → World
  | [], w => w
  | observer :: rest, w =>
    if observer ≠ nullptr then
      notifyLoop heap slot message rest (invoke heap observer slot message w)
    else
      notifyLoop heap slot message rest w

/-- Method `Logger::warning`: the loop calling `onWarning`. -/
def Logger.warning (heap : Heap) (self : Logger) (message : String) (w : World) : World :=
  notifyLoop heap Slot.onWarning message self.observers_ w

/-- Method `Logger::error`: the loop calling `onError`. -/
def Logger.error (heap : Heap) (self : Logger) (message : String) (w : World) : World :=
  notifyLoop heap Slot.onError message self.observers_ w

/-- Method `Logger::fatalError`: the loop calling `onFatalError`. -/
def Logger.fatalError (heap : Heap) (self : Logger) (message : String) (w : World) : World :=
  notifyLoop heap Slot.onFatalError message self.observers_ w

/-! ## Programs: sequences of calls on one Logger -/

/-- A call a client can make on a Logger. -/
inductive Call where
  | addObserver (observer : Ptr)
  | removeObserver (observer : Ptr)
  | warning (message : String)
  | error (message : String)
  | fatalError (message : String)
  deriving DecidableEq, Repr

/-- The Logger together with the outside world. -/
structure State where
  logger : Logger
  world : World

/-- One call. The two registration methods touch the Logger only; the three
notification methods are `const` and touch the world only. -/
def step (heap : Heap) (c : Call) (s : State) : State :=
  match c with
  | .addObserver o => { s with logger := s.logger.addObserver o }
  | .removeObserver o => { s with logger := s.logger.removeObserver o }
  | .warning m => { s with world := s.logger.warning heap m s.world }
  | .error m => { s with world := s.logger.error heap m s.world }
  | .fatalError m => { s with world := s.logger.fatalError heap m s.world }

/-- A sequence of calls, first to last. -/
def run (heap : Heap) (calls : List Call) (s : State) : State :=
  calls.foldl (fun acc c => step heap c acc) s

/-- A world in which nothing has been written, no file exists, every path
leads to a regular file of that name and every insertion goes through. -/
def World.initial (canOpen : String → Bool) : World :=
  { stdout := "", stderr := "", target := fun q => Target.regular q, store := fun _ => none,
    canOpen := canOpen, writeOk := fun _ => true, trace := [] }

/-- A freshly constructed Logger. -/
def Logger.empty : Logger := { observers_ := [] }

/-- The same outcome described from the call sequence alone: the references
of the `addObserver` calls that no later `removeObserver` of the same
reference follows, one per call, in call order. -/
def survivors : List Call → List Ptr
  | [] => []
  | Call.addObserver o :: rest =>
    if Call.removeObserver o ∈ rest then survivors rest else o :: survivors rest
  | _ :: rest => survivors rest

/-- Whether a trace entry is a virtual call made by the Logger. -/
def Event.isCall : Event → Bool
  | .call _ _ _ => true
  | _ => false

/-- The calls of a trace, in order. -/
def callsOf (trace : List Event) : List Event :=
  trace.filter Event.isCall

/-- The entries of a collection that are not null, in order. -/
def nonNull (observers : List Ptr) : List Ptr :=
  observers.filter (fun o => decide (o ≠ nullptr))

/-! ## A concrete set-up for the scenarios -/

/-- A path that the scenario world refuses to open. -/
def lockedPath : String := "/locked/log.txt"

/-- Five live objects: a WarningObserver at 1, an ErrorObserver on `out.txt`
at 2, a FatalErrorObserver on `fatal.txt` at 3, an ErrorObserver and a
FatalErrorObserver on the locked path at 4 and 5. -/
def demoHeap : Heap := fun a =>
  if a = 1 then Obj.warningObserver
  else if a = 2 then Obj.errorObserver "out.txt"
  else if a = 3 then Obj.fatalErrorObserver "fatal.txt"
  else if a = 4 then Obj.errorObserver lockedPath
  else if a = 5 then Obj.fatalErrorObserver lockedPath
  else Obj.base

/-- A path on a full disk: it opens, and no insertion goes through. -/
def fullPath : String := "/full/log.txt"

/-- Nothing written yet, `out.txt` holding the line `X`, no other regular
file. The path `./out.txt` leads to the same file as `out.txt`, the three
device paths lead to their devices, any other path to a regular file of its
own. Every path but the locked one can be opened, and insertions go through
on every path but the one on the full disk. -/
def demoWorld : World :=
  { stdout := "",
    stderr := "",
    target := fun q =>
      if q = "./out.txt" then Target.regular "out.txt"
      else if q = "/dev/null" then Target.discard
      else if q = "/dev/stdout" then Target.stdout
      else if q = "/dev/stderr" then Target.stderr
      else Target.regular q,
    store := fun k => if k = "out.txt" then some "X\n" else none,
    canOpen := fun q => decide (q ≠ lockedPath),
    writeOk := fun q => decide (q ≠ fullPath),
    trace := [] }

/-! ## Lemmas on the erase-remove idiom -/

theorem drop_eq_getD_cons (v : List Ptr) (i : Nat) (h : i < v.length) :
    v.drop i = v.getD i nullptr :: v.drop (i + 1) := by
  rw [List.getD_eq_getElem v nullptr h]
  exact List.drop_eq_getElem_cons h

theorem take_succ_eq_getD (v : List Ptr) (i : Nat) (h : i < v.length) :
    v.take (i + 1) = v.take i ++ [v.getD i nullptr] := by
  rw [List.take_succ, List.getD_eq_getElem v nullptr h, List.getElem?_eq_getElem h]
  rfl

theorem stdFindLoop_spec (value : Ptr) (n : Nat) :
    ∀ (v : List Ptr) (first : Nat), first + n = v.length →
      first ≤ stdFindLoop v value n first ∧
      stdFindLoop v value n first ≤ v.length ∧
      (stdFindLoop v value n first < v.length →
        v.getD (stdFindLoop v value n first) nullptr = value) ∧
      v.take first ++ (v.drop first).filter (fun x => decide (x ≠ value)) =
        v.take (stdFindLoop v value n first) ++
          (v.drop (stdFindLoop v value n first)).filter (fun x => decide (x ≠ value)) := by
  induction n with
  | zero =>
    intro v first hn
    have h : first = v.length := by omega
    subst h
    simp [stdFindLoop]
  | succ n ih =>
    intro v first hn
    have hlt : first < v.length := by omega
    rw [stdFindLoop]
    by_cases hx : v.getD first nullptr = value
    · rw [if_pos hx]
      exact ⟨le_refl _, by omega, fun _ => hx, rfl⟩
    · rw [if_neg hx]
      obtain ⟨h1, h2, h3, h4⟩ := ih v (first + 1) (by omega)
      refine ⟨by omega, h2, h3, ?_⟩
      rw [← h4, drop_eq_getD_cons v first hlt,
        List.filter_cons_of_pos (by simpa using hx), take_succ_eq_getD v first hlt,
        List.append_assoc]
      rfl

theorem removeLoop_spec (value : Ptr) (n : Nat) :
    ∀ (v : List Ptr) (result first : Nat), first + n = v.length → result < first →
      (removeLoop v value n result first).1.length = v.length ∧
      (removeLoop v value n result first).2 ≤ v.length ∧
      (removeLoop v value n result first).1.take (removeLoop v value n result first).2 =
        v.take result ++ (v.drop first).filter (fun x => decide (x ≠ value)) := by
  induction n with
  | zero =>
    intro v result first hn hrf
    have h : first = v.length := by omega
    subst h
    simp [removeLoop]
    omega
  | succ n ih =>
    intro v result first hn hrf
    have hlt : first < v.length := by omega
    rw [removeLoop]
    by_cases hx : v.getD first nullptr = value
    · have hx2 : ¬ (v.getD first nullptr ≠ value) := by simpa using hx
      rw [if_neg hx2]
      obtain ⟨h1, h2, h3⟩ := ih v result (first + 1) (by omega) (by omega)
      refine ⟨h1, h2, ?_⟩
      rw [h3, drop_eq_getD_cons v first hlt, List.filter_cons_of_neg (by simpa using hx)]
    · have hx2 : v.getD first nullptr ≠ value := hx
      rw [if_pos hx2]
      have hlen : (v.set result (v.getD first nullptr)).length = v.length :=
        List.length_set _ _ _
      have key := ih (v.set result (v.getD first nullptr)) (result + 1) (first + 1)
        (by omega) (by omega)
      rw [hlen] at key
      obtain ⟨h1, h2, h3⟩ := key
      refine ⟨h1, h2, ?_⟩
      rw [h3, drop_eq_getD_cons v first hlt, List.filter_cons_of_pos (by simpa using hx)]
      have hdrop : (v.set result (v.getD first nullptr)).drop (first + 1) = v.drop (first + 1) :=
        List.drop_set_of_lt _ _ (by omega)
      have htake : (v.set result (v.getD first nullptr)).take (result + 1) =
          v.take result ++ [v.getD first nullptr] := by
        apply List.ext_getElem
        · simp; omega
        · intro i hi1 hi2
          simp at hi1
          by_cases hir : i = result
          · subst hir
            simp [List.getElem_append_right]
          · have hlt2 : i < (List.take result v).length := by
              rw [List.length_take]
              omega
            rw [List.getElem_append_left hlt2]
            simp [List.getElem_set_ne (Ne.symm hir)]
      rw [hdrop, htake, List.append_assoc]
      rfl

theorem removeObserver_eq_filter (self : Logger) (observer : Ptr) :
    (self.removeObserver observer).observers_ =
      self.observers_.filter (fun x => decide (x ≠ observer)) := by
  obtain ⟨v⟩ := self
  obtain ⟨f1, f2, f3, f4⟩ := stdFindLoop_spec observer v.length v 0 (by omega)
  simp only [Logger.removeObserver, stdRemove, vectorErase, stdFind, Nat.sub_zero]
  simp only [List.take_zero, List.nil_append, List.drop_zero] at f4
  by_cases hf : stdFindLoop v observer v.length 0 = v.length
  · simp only [if_pos hf]
    rw [f4, hf]
    simp
  · simp only [if_neg hf]
    have hlt : stdFindLoop v observer v.length 0 < v.length := by omega
    obtain ⟨h1, h2, h3⟩ := removeLoop_spec observer (v.length - (stdFindLoop v observer v.length 0 + 1))
      v (stdFindLoop v observer v.length 0) (stdFindLoop v observer v.length 0 + 1)
      (by omega) (by omega)
    rw [List.drop_length, List.append_nil, h3, f4, drop_eq_getD_cons v _ hlt,
      List.filter_cons_of_neg (by simpa using f3 hlt)]

/-! ## Lemmas on the handlers and the notification loop -/

@[simp] theorem openAppend_stdout (w : World) (path : String) :
    (w.openAppend path).stdout = w.stdout := by
  unfold World.openAppend
  split <;> rfl

@[simp] theorem openAppend_stderr (w : World) (path : String) :
    (w.openAppend path).stderr = w.stderr := by
  unfold World.openAppend
  split <;> rfl

@[simp] theorem openAppend_target (w : World) (path : String) :
    (w.openAppend path).target = w.target := by
  unfold World.openAppend
  split <;> rfl

@[simp] theorem openAppend_canOpen (w : World) (path : String) :
    (w.openAppend path).canOpen = w.canOpen := by
  unfold World.openAppend
  split <;> rfl

@[simp] theorem openAppend_writeOk (w : World) (path : String) :
    (w.openAppend path).writeOk = w.writeOk := by
  unfold World.openAppend
  split <;> rfl

@[simp] theorem openAppend_trace (w : World) (path : String) :
    (w.openAppend path).trace = w.trace := by
  unfold World.openAppend
  split <;> rfl

@[simp] theorem writeFile_target (w : World) (path text : String) :
    (w.writeFile path text).target = w.target := by
  unfold World.writeFile
  split
  · split <;> rfl
  · rfl

@[simp] theorem writeFile_canOpen (w : World) (path text : String) :
    (w.writeFile path text).canOpen = w.canOpen := by
  unfold World.writeFile
  split
  · split <;> rfl
  · rfl

@[simp] theorem writeFile_writeOk (w : World) (path text : String) :
    (w.writeFile path text).writeOk = w.writeOk := by
  unfold World.writeFile
  split
  · split <;> rfl
  · rfl

@[simp] theorem writeFile_trace (w : World) (path text : String) :
    (w.writeFile path text).trace = w.trace ++ [Event.file path text] := by
  unfold World.writeFile
  split
  · split <;> rfl
  · rfl

theorem handle_canOpen (self : Obj) (slot : Slot) (message : String) (w : World) :
    (self.handle slot message w).canOpen = w.canOpen := by
  cases self <;> cases slot <;>
    simp only [Obj.handle, Obj.onWarning, Obj.onError, Obj.onFatalError, World.writeStdout,
      World.writeStderr] <;>
    first
    | rfl
    | (split <;> simp)

theorem handle_callsOf (self : Obj) (slot : Slot) (message : String) (w : World) :
    callsOf (self.handle slot message w).trace = callsOf w.trace := by
  cases self <;> cases slot <;>
    simp only [Obj.handle, Obj.onWarning, Obj.onError, Obj.onFatalError, World.writeStdout,
      World.writeStderr] <;>
    first
    | rfl
    | (split <;> simp [callsOf, Event.isCall])
    | simp [callsOf, Event.isCall]

theorem invoke_callsOf (heap : Heap) (o : Ptr) (slot : Slot) (message : String) (w : World) :
    callsOf (invoke heap o slot message w).trace =
      callsOf w.trace ++ [Event.call o slot message] := by
  rw [invoke, handle_callsOf]
  simp [callsOf, Event.isCall]

theorem invoke_canOpen (heap : Heap) (o : Ptr) (slot : Slot) (message : String) (w : World) :
    (invoke heap o slot message w).canOpen = w.canOpen := by
  rw [invoke, handle_canOpen]

theorem notifyLoop_append (heap : Heap) (slot : Slot) (message : String) (a b : List Ptr) :
    ∀ w : World, notifyLoop heap slot message (a ++ b) w =
      notifyLoop heap slot message b (notifyLoop heap slot message a w) := by
  induction a with
  | nil => intro w; rfl
  | cons o rest ih =>
    intro w
    simp only [List.cons_append, notifyLoop]
    split <;> exact ih _

theorem notifyLoop_nonNull (heap : Heap) (slot : Slot) (message : String) (obs : List Ptr) :
    ∀ w : World, notifyLoop heap slot message obs w =
      notifyLoop heap slot message (nonNull obs) w := by
  induction obs with
  | nil => intro w; rfl
  | cons o rest ih =>
    intro w
    by_cases ho : o = nullptr
    · have h1 : nonNull (o :: rest) = nonNull rest := by simp [nonNull, ho]
      rw [h1, ← ih w]
      simp [notifyLoop, ho]
    · have h1 : nonNull (o :: rest) = o :: nonNull rest := by simp [nonNull, ho]
      rw [h1]
      simp only [notifyLoop, ne_eq, ho, not_false_eq_true, if_true]
      exact ih _

theorem notifyLoop_callsOf (heap : Heap) (slot : Slot) (message : String) (obs : List Ptr) :
    ∀ w : World, callsOf (notifyLoop heap slot message obs w).trace =
      callsOf w.trace ++ (nonNull obs).map (fun o => Event.call o slot message) := by
  induction obs with
  | nil => intro w; simp [notifyLoop, nonNull]
  | cons o rest ih =>
    intro w
    by_cases ho : o = nullptr
    · have h1 : nonNull (o :: rest) = nonNull rest := by simp [nonNull, ho]
      rw [h1, ← ih w]
      simp [notifyLoop, ho]
    · have h1 : nonNull (o :: rest) = o :: nonNull rest := by simp [nonNull, ho]
      rw [h1]
      simp only [notifyLoop, ne_eq, ho, not_false_eq_true, if_true]
      rw [ih, invoke_callsOf]
      simp

theorem notifyLoop_canOpen (heap : Heap) (slot : Slot) (message : String) (obs : List Ptr) :
    ∀ w : World, (notifyLoop heap slot message obs w).canOpen = w.canOpen := by
  induction obs with
  | nil => intro w; rfl
  | cons o rest ih =>
    intro w
    simp only [notifyLoop]
    split
    · rw [ih, invoke_canOpen]
    · exact ih _

/-! ## Lemmas on call sequences -/

theorem run_cons (heap : Heap) (c : Call) (calls : List Call) (s : State) :
    run heap (c :: calls) s = run heap calls (step heap c s) := rfl

theorem run_observers (heap : Heap) (calls : List Call) :
    ∀ s : State, (run heap calls s).logger.observers_ =
      s.logger.observers_.filter (fun x => decide (Call.removeObserver x ∉ calls)) ++
        survivors calls := by
  induction calls with
  | nil => intro s; simp [run, survivors]
  | cons c rest ih =>
    intro s
    rw [run_cons, ih]
    cases c with
    | addObserver o =>
      simp only [step, Logger.addObserver, List.concat_eq_append, List.filter_append, survivors]
      by_cases h : Call.removeObserver o ∈ rest
      · simp [h]
      · simp [h]
    | removeObserver o =>
      simp only [step, removeObserver_eq_filter, survivors, List.filter_filter]
      congr 1
      apply List.filter_congr
      intro x _
      by_cases hx : x = o
      · simp [hx]
      · simp [hx]
    | warning m => simp [step, survivors]
    | error m => simp [step, survivors]
    | fatalError m => simp [step, survivors]

theorem logger_ext (a b : Logger) (h : a.observers_ = b.observers_) : a = b := by
  cases a
  cases b
  simpa using h

/-! ## The registration contract -/

/-- C1: starting from an empty Logger, after any finite sequence of calls
(the `addObserver` and `removeObserver` calls being the only ones that
matter) the collection holds exactly the references of the `addObserver`
calls that no later `removeObserver` of the same reference follows, one entry
per such call, in the order of those calls. -/
theorem observers_after_calls (heap : Heap) (calls : List Call) (w : World) :
    (run heap calls { logger := Logger.empty, world := w }).logger.observers_ =
      survivors calls := by
  rw [run_observers]
  simp [Logger.empty]

/-- Witness of C1: two observers registered, the first removed and registered
again, a notification in between; the second one now comes first. -/
theorem observers_after_calls_witness :
    (run demoHeap
        [Call.addObserver 1, Call.addObserver 2, Call.addObserver 1, Call.removeObserver 1,
          Call.warning "hello", Call.addObserver 1, Call.removeObserver 7]
        { logger := Logger.empty, world := demoWorld }).logger.observers_ = [2, 1] :=
  (observers_after_calls demoHeap
    [Call.addObserver 1, Call.addObserver 2, Call.addObserver 1, Call.removeObserver 1,
      Call.warning "hello", Call.addObserver 1, Call.removeObserver 7] demoWorld).trans
    (by decide)

/-- C2: `removeObserver(ref)` leaves the collection filtered by
`entry != ref`: no occurrence of `ref` is left (null included, duplicates
included), every other reference keeps all its occurrences, and what is left
is a subsequence of the collection, so relative order is kept. -/
theorem removeObserver_filters (self : Logger) (ref : Ptr) :
    (self.removeObserver ref).observers_ = self.observers_.filter (fun entry => entry != ref) ∧
    ref ∉ (self.removeObserver ref).observers_ ∧
    (∀ x, x ≠ ref →
      (self.removeObserver ref).observers_.count x = self.observers_.count x) ∧
    (self.removeObserver ref).observers_.Sublist self.observers_ := by
  have hf : (self.observers_.filter (fun x => decide (x ≠ ref))) =
      self.observers_.filter (fun entry => entry != ref) := by
    apply List.filter_congr
    intro x _
    by_cases hx : x = ref <;> simp [hx]
  rw [removeObserver_eq_filter]
  refine ⟨hf, ?_, ?_, List.filter_sublist _⟩
  · simp [List.mem_filter]
  · intro x hx
    rw [List.count_filter]
    simpa using hx

/-- Witness of C2: removing the address 1, registered twice, and removing the
null pointer. -/
theorem removeObserver_filters_witness :
    (({ observers_ := [1, 2, 1, 0, 3, 1] } : Logger).removeObserver 1).observers_ = [2, 0, 3] ∧
    (({ observers_ := [1, 0, 2, 0] } : Logger).removeObserver nullptr).observers_ = [1, 2] :=
  ⟨(removeObserver_filters { observers_ := [1, 2, 1, 0, 3, 1] } 1).1.trans (by decide),
    (removeObserver_filters { observers_ := [1, 0, 2, 0] } nullptr).1.trans (by decide)⟩

/-- C3: removing a reference that does not occur in the collection changes
nothing: the Logger is the same, entry for entry, and so is its length. -/
theorem removeObserver_absent (self : Logger) (x : Ptr) (h : x ∉ self.observers_) :
    self.removeObserver x = self ∧
    (self.removeObserver x).observers_.length = self.observers_.length := by
  have hobs : (self.removeObserver x).observers_ = self.observers_ := by
    rw [removeObserver_eq_filter, List.filter_eq_self]
    intro a ha
    have : a ≠ x := fun hax => h (hax ▸ ha)
    simpa using this
  exact ⟨logger_ext _ _ hobs, by rw [hobs]⟩

/-- Witness of C3: removing the address 7 from a collection holding 1, 2, 1
and a null entry. -/
theorem removeObserver_absent_witness :
    (7 : Ptr) ∉ ({ observers_ := [1, 2, 1, 0] } : Logger).observers_ ∧
    (({ observers_ := [1, 2, 1, 0] } : Logger).removeObserver 7 =
        { observers_ := [1, 2, 1, 0] } ∧
      (({ observers_ := [1, 2, 1, 0] } : Logger).removeObserver 7).observers_.length =
        ({ observers_ := [1, 2, 1, 0] } : Logger).observers_.length) :=
  ⟨by decide, removeObserver_absent { observers_ := [1, 2, 1, 0] } 7 (by decide)⟩

/-- C4: `addObserver(ref)` gives the collection followed by `ref`, whatever
`ref` is: one entry more, the old entries at their old positions, `ref` last.
It is a total function and looks at neither `ref` nor the old entries. -/
theorem addObserver_appends (self : Logger) (ref : Ptr) :
    (self.addObserver ref).observers_ = self.observers_ ++ [ref] ∧
    (self.addObserver ref).observers_.length = self.observers_.length + 1 ∧
    (∀ i, i < self.observers_.length →
      (self.addObserver ref).observers_[i]? = self.observers_[i]?) ∧
    (self.addObserver ref).observers_.getLast? = some ref := by
  have hobs : (self.addObserver ref).observers_ = self.observers_ ++ [ref] := by
    simp [Logger.addObserver]
  rw [hobs]
  refine ⟨rfl, by simp, ?_, by simp⟩
  intro i hi
  exact List.getElem?_append_left hi

/-- Witness of C4: registering an address that is already there, and the
null pointer. -/
theorem addObserver_appends_witness :
    (({ observers_ := [1, 2] } : Logger).addObserver 1).observers_ = [1, 2, 1] ∧
    (({ observers_ := [1, 2] } : Logger).addObserver nullptr).observers_ = [1, 2, 0] :=
  ⟨(addObserver_appends { observers_ := [1, 2] } 1).1.trans (by decide),
    (addObserver_appends { observers_ := [1, 2] } nullptr).1.trans (by decide)⟩

/-! ## The notification contract -/

theorem notifyLoop_null_calls (heap : Heap) (slot : Slot) (message : String) (obs : List Ptr)
    (w : World) (slot2 : Slot) (msg : String) :
    (notifyLoop heap slot message obs w).trace.count (Event.call nullptr slot2 msg) =
      w.trace.count (Event.call nullptr slot2 msg) := by
  have hc : ∀ t : List Event, t.count (Event.call nullptr slot2 msg) =
      (callsOf t).count (Event.call nullptr slot2 msg) := by
    intro t
    rw [callsOf, List.count_filter]
    rfl
  rw [hc, hc w.trace, notifyLoop_callsOf, List.count_append, Nat.add_right_eq_self,
    List.count_eq_zero]
  intro hmem
  obtain ⟨o, ho, heq⟩ := List.mem_map.mp hmem
  have h0 : o = nullptr := by
    injection heq
  simp [nonNull, h0] at ho

/-- C6: when the collection holds null entries, each of `warning`, `error`
and `fatalError` leaves the world exactly as the same notification on the
collection without its null entries does, adds no call on the null pointer to
the trace, and leaves the Logger as it was, null entries included. -/
theorem null_entries_skipped (heap : Heap) (s : State) (message : String) (c : Call)
    (hc : c = Call.warning message ∨ c = Call.error message ∨ c = Call.fatalError message)
    (hnull : nullptr ∈ s.logger.observers_) :
    (step heap c s).world =
      (step heap c { s with logger := { observers_ := nonNull s.logger.observers_ } }).world ∧
    (∀ slot msg, (step heap c s).world.trace.count (Event.call nullptr slot msg) =
      s.world.trace.count (Event.call nullptr slot msg)) ∧
    (step heap c s).logger = s.logger ∧
    nullptr ∈ (step heap c s).logger.observers_ := by
  rcases hc with rfl | rfl | rfl
  · exact ⟨notifyLoop_nonNull _ _ _ _ _, fun _ _ => notifyLoop_null_calls _ _ _ _ _ _ _,
      rfl, hnull⟩
  · exact ⟨notifyLoop_nonNull _ _ _ _ _, fun _ _ => notifyLoop_null_calls _ _ _ _ _ _ _,
      rfl, hnull⟩
  · exact ⟨notifyLoop_nonNull _ _ _ _ _, fun _ _ => notifyLoop_null_calls _ _ _ _ _ _ _,
      rfl, hnull⟩

/-- Witness of C6: `error("boom")` on the collection 1, null, 2 of the
scenario set-up. -/
theorem null_entries_skipped_witness :
    nullptr ∈ ({ observers_ := [1, 0, 2] } : Logger).observers_ ∧
    ((step demoHeap (Call.error "boom")
        { logger := { observers_ := [1, 0, 2] }, world := demoWorld }).world =
      (step demoHeap (Call.error "boom")
        { logger := { observers_ := nonNull [1, 0, 2] }, world := demoWorld }).world ∧
    (∀ slot msg,
      (step demoHeap (Call.error "boom")
        { logger := { observers_ := [1, 0, 2] }, world := demoWorld }).world.trace.count
          (Event.call nullptr slot msg) =
        demoWorld.trace.count (Event.call nullptr slot msg)) ∧
    (step demoHeap (Call.error "boom")
        { logger := { observers_ := [1, 0, 2] }, world := demoWorld }).logger =
      { observers_ := [1, 0, 2] } ∧
    nullptr ∈ (step demoHeap (Call.error "boom")
        { logger := { observers_ := [1, 0, 2] }, world := demoWorld }).logger.observers_) :=
  ⟨by decide,
    null_entries_skipped demoHeap { logger := { observers_ := [1, 0, 2] }, world := demoWorld }
      "boom" (Call.error "boom") (Or.inr (Or.inl rfl)) (by decide)⟩

/-! ## The observers -/

theorem notifyLoop_single (heap : Heap) (slot : Slot) (message : String) (o : Ptr)
    (w : World) (ho : o ≠ nullptr) :
    notifyLoop heap slot message [o] w = invoke heap o slot message w := by
  simp [notifyLoop, ho]

theorem openWrite_regular (w : World) (path text file : String)
    (hfile : w.target path = Target.regular file) (hwrite : w.writeOk path = true) :
    ((w.openAppend path).writeFile path text).files path =
      some ((w.files path).getD "" ++ text) ∧
    (∀ q, w.target q ≠ Target.regular file →
      ((w.openAppend path).writeFile path text).files q = w.files q) ∧
    ((w.openAppend path).writeFile path text).stdout = w.stdout ∧
    ((w.openAppend path).writeFile path text).stderr = w.stderr := by
  have hopen : w.openAppend path =
      { w with store := fun k => if k = file then some ((w.store file).getD "") else w.store k } := by
    simp [World.openAppend, hfile]
  rw [hopen]
  refine ⟨?_, ?_, ?_, ?_⟩
  · simp [World.writeFile, World.files, hfile, hwrite]
  · intro q hq
    cases hq2 : w.target q with
    | regular g =>
      have hg : g ≠ file := by
        intro h
        exact hq (by rw [hq2, h])
      simp [World.writeFile, World.files, hfile, hwrite, hq2, hg]
    | discard => simp [World.writeFile, World.files, hfile, hwrite, hq2]
    | stdout => simp [World.writeFile, World.files, hfile, hwrite, hq2]
    | stderr => simp [World.writeFile, World.files, hfile, hwrite, hq2]
  · simp [World.writeFile, hfile, hwrite]
  · simp [World.writeFile, hfile, hwrite]

theorem openAppend_withTrace (w : World) (t : List Event) (path : String) :
    ({ w with trace := t } : World).openAppend path = { w.openAppend path with trace := t } := by
  cases h : w.target path <;> simp [World.openAppend, h]

theorem writeFile_withTrace (w : World) (t : List Event) (path text : String) :
    ({ w with trace := t } : World).writeFile path text =
      { w.writeFile path text with trace := t ++ [Event.file path text] } := by
  cases h : w.target path <;> cases hk : w.writeOk path <;> simp [World.writeFile, h, hk]

theorem files_withTrace (w : World) (t : List Event) :
    ({ w with trace := t } : World).files = w.files := rfl

theorem onError_open (path message : String) (w : World) (h : w.canOpen path = true) :
    (Obj.errorObserver path).onError message w =
      (w.openAppend path).writeFile path ("Error: " ++ message ++ "\n") := by
  show (if w.canOpen path = true then _ else _) = _
  rw [if_pos h]

theorem onError_fail (path message : String) (w : World) (h : w.canOpen path = false) :
    (Obj.errorObserver path).onError message w =
      w.writeStderr ("Failed to open file: " ++ path ++ "\n") := by
  show (if w.canOpen path = true then _ else _) = _
  rw [if_neg (by simp [h])]

theorem onFatalError_open (path message : String) (w : World) (h : w.canOpen path = true) :
    (Obj.fatalErrorObserver path).onFatalError message w =
      ((w.writeStderr ("Fatal Error: " ++ message ++ "\n")).openAppend path).writeFile path
        ("Fatal Error: " ++ message ++ "\n") := by
  show (if w.canOpen path = true then _ else _) = _
  rw [if_pos h]

theorem onFatalError_fail (path message : String) (w : World) (h : w.canOpen path = false) :
    (Obj.fatalErrorObserver path).onFatalError message w =
      (w.writeStderr ("Fatal Error: " ++ message ++ "\n")).writeStderr
        ("Failed to open file: " ++ path ++ "\n") := by
  show (if w.canOpen path = true then _ else _) = _
  rw [if_neg (by simp [h])]

theorem handle_withTrace (self : Obj) (slot : Slot) (message : String) (w : World)
    (t : List Event) :
    ∃ t2, self.handle slot message { w with trace := t } =
      { self.handle slot message w with trace := t2 } := by
  cases self with
  | base => cases slot <;> exact ⟨t, rfl⟩
  | warningObserver =>
    cases slot
    · exact ⟨t ++ [Event.cout ("Warning: " ++ message ++ "\n")], rfl⟩
    · exact ⟨t, rfl⟩
    · exact ⟨t, rfl⟩
  | errorObserver path =>
    cases slot
    · exact ⟨t, rfl⟩
    · show ∃ t2, (Obj.errorObserver path).onError message { w with trace := t } =
        { (Obj.errorObserver path).onError message w with trace := t2 }
      cases hc : w.canOpen path
      · rw [onError_fail path message { w with trace := t } hc, onError_fail path message w hc]
        exact ⟨_, rfl⟩
      · rw [onError_open path message { w with trace := t } hc, onError_open path message w hc,
          openAppend_withTrace, writeFile_withTrace]
        exact ⟨_, rfl⟩
    · exact ⟨t, rfl⟩
  | fatalErrorObserver path =>
    cases slot
    · exact ⟨t, rfl⟩
    · exact ⟨t, rfl⟩
    · show ∃ t2, (Obj.fatalErrorObserver path).onFatalError message { w with trace := t } =
        { (Obj.fatalErrorObserver path).onFatalError message w with trace := t2 }
      have h1 : ({ w with trace := t } : World).writeStderr ("Fatal Error: " ++ message ++ "\n") =
          { w.writeStderr ("Fatal Error: " ++ message ++ "\n") with
            trace := t ++ [Event.cerr ("Fatal Error: " ++ message ++ "\n")] } := rfl
      cases hc : w.canOpen path
      · rw [onFatalError_fail path message { w with trace := t } hc,
          onFatalError_fail path message w hc]
        exact ⟨_, rfl⟩
      · rw [onFatalError_open path message { w with trace := t } hc,
          onFatalError_open path message w hc, h1, openAppend_withTrace, writeFile_withTrace]
        exact ⟨_, rfl⟩

theorem handle_trace_irrelevant (self : Obj) (slot : Slot) (message : String) (w : World)
    (t : List Event) :
    (self.handle slot message { w with trace := t }).stdout =
      (self.handle slot message w).stdout ∧
    (self.handle slot message { w with trace := t }).stderr =
      (self.handle slot message w).stderr ∧
    (self.handle slot message { w with trace := t }).files =
      (self.handle slot message w).files := by
  obtain ⟨t2, h⟩ := handle_withTrace self slot message w t
  rw [h]
  exact ⟨rfl, rfl, rfl⟩

theorem notifyLoop_single_effect (heap : Heap) (slot : Slot) (message : String) (o : Ptr)
    (w : World) (ho : o ≠ nullptr) :
    (notifyLoop heap slot message [o] w).stdout = ((heap o).handle slot message w).stdout ∧
    (notifyLoop heap slot message [o] w).stderr = ((heap o).handle slot message w).stderr ∧
    (notifyLoop heap slot message [o] w).files = ((heap o).handle slot message w).files := by
  rw [notifyLoop_single heap slot message o w ho, invoke]
  exact handle_trace_irrelevant _ _ _ _ _

/-- C7 as stated fails: a path that opens need not keep what is written to
it, need not be the only name of its file, and need not be a file. In the
scenario world `/dev/null` opens and is as empty after `onError("x")` as
before; the path on the full disk opens, its file is created, and the line
never reaches it; after `onError("x")` on `out.txt` the other name `./out.txt`
shows the new line too; and on `/dev/stdout` the line lands on standard
output. -/
theorem errorObserver_onError_appends_counterexample :
    (demoWorld.canOpen "/dev/null" = true ∧
      ((Obj.errorObserver "/dev/null").onError "x" demoWorld).files "/dev/null" = some "" ∧
      ((Obj.errorObserver "/dev/null").onError "x" demoWorld).files "/dev/null" ≠
        some ((demoWorld.files "/dev/null").getD "" ++ ("Error: " ++ "x" ++ "\n"))) ∧
    (demoWorld.canOpen fullPath = true ∧
      ((Obj.errorObserver fullPath).onError "x" demoWorld).files fullPath = some "" ∧
      ((Obj.errorObserver fullPath).onError "x" demoWorld).files fullPath ≠
        some ((demoWorld.files fullPath).getD "" ++ ("Error: " ++ "x" ++ "\n"))) ∧
    (demoWorld.canOpen "out.txt" = true ∧ "./out.txt" ≠ "out.txt" ∧
      ((Obj.errorObserver "out.txt").onError "x" demoWorld).files "./out.txt" ≠
        demoWorld.files "./out.txt") ∧
    (demoWorld.canOpen "/dev/stdout" = true ∧
      ((Obj.errorObserver "/dev/stdout").onError "x" demoWorld).stdout ≠ demoWorld.stdout) := by
  decide

/-- C7 (amended): when `path` can be opened for appending, leads to a regular
file and the insertion goes through, `ErrorObserver(path).onError(m)` leaves
the file at `path` holding what it held (nothing when it was absent) followed
by `"Error: " ++ m ++ "\n"`, leaves every path that leads elsewhere than to
that file, standard output and standard error as they were; and `error(m)` on
a Logger holding only such an observer has that same effect. -/
theorem errorObserver_onError_appends (path message file : String) (w : World)
    (hopen : w.canOpen path = true) (hfile : w.target path = Target.regular file)
    (hwrite : w.writeOk path = true) :
    ((Obj.errorObserver path).onError message w).files path =
      some ((w.files path).getD "" ++ ("Error: " ++ message ++ "\n")) ∧
    (∀ q, w.target q ≠ Target.regular file →
      ((Obj.errorObserver path).onError message w).files q = w.files q) ∧
    ((Obj.errorObserver path).onError message w).stdout = w.stdout ∧
    ((Obj.errorObserver path).onError message w).stderr = w.stderr ∧
    (∀ (heap : Heap) (o : Ptr), o ≠ nullptr → heap o = Obj.errorObserver path →
      (Logger.error heap { observers_ := [o] } message w).files =
        ((Obj.errorObserver path).onError message w).files ∧
      (Logger.error heap { observers_ := [o] } message w).stdout = w.stdout ∧
      (Logger.error heap { observers_ := [o] } message w).stderr = w.stderr) := by
  obtain ⟨h1, h2, h3, h4⟩ :=
    openWrite_regular w path ("Error: " ++ message ++ "\n") file hfile hwrite
  rw [← onError_open path message w hopen] at h1 h2 h3 h4
  refine ⟨h1, h2, h3, h4, ?_⟩
  intro heap o ho hobj
  obtain ⟨e1, e2, e3⟩ := notifyLoop_single_effect heap Slot.onError message o w ho
  rw [hobj] at e1 e2 e3
  exact ⟨e3, e1.trans h3, e2.trans h4⟩

/-- Witness of C7: the Logger holds only the ErrorObserver on `out.txt`, the
file holds `X\n`; after `error("boom")` it holds `X\nError: boom\n`. -/
theorem errorObserver_onError_appends_witness :
    demoWorld.canOpen "out.txt" = true ∧
    demoWorld.target "out.txt" = Target.regular "out.txt" ∧
    demoWorld.writeOk "out.txt" = true ∧
    demoWorld.files "out.txt" = some "X\n" ∧
    (Logger.error demoHeap { observers_ := [2] } "boom" demoWorld).files "out.txt" =
      some "X\nError: boom\n" ∧
    (Logger.error demoHeap { observers_ := [2] } "boom" demoWorld).stdout = "" ∧
    (Logger.error demoHeap { observers_ := [2] } "boom" demoWorld).stderr = "" :=
  ⟨by decide, by decide, by decide, by decide,
    ((errorObserver_onError_appends "out.txt" "boom" "out.txt" demoWorld (by decide)
        (by decide) (by decide)).2.2.2.2 demoHeap 2 (by decide) (by decide)).1 ▸
      (errorObserver_onError_appends "out.txt" "boom" "out.txt" demoWorld (by decide)
        (by decide) (by decide)).1.trans (by decide),
    ((errorObserver_onError_appends "out.txt" "boom" "out.txt" demoWorld (by decide)
        (by decide) (by decide)).2.2.2.2 demoHeap 2 (by decide) (by decide)).2.1,
    ((errorObserver_onError_appends "out.txt" "boom" "out.txt" demoWorld (by decide)
        (by decide) (by decide)).2.2.2.2 demoHeap 2 (by decide) (by decide)).2.2⟩

/-- C8: when `path` cannot be opened, `ErrorObserver(path).onError(m)` appends
exactly `"Failed to open file: " ++ path ++ "\n"` to standard error and
leaves the files and standard output as they were. The handler returns, so
`error(m)` on a collection in which such an observer stands between `pre` and
`post` is: the notification of `pre`, that one call, then the whole
notification of `post`, whose non-null entries are all called, in order. -/
theorem errorObserver_open_failure (path message : String) (w : World)
    (hfail : w.canOpen path = false) :
    ((Obj.errorObserver path).onError message w).stderr =
      w.stderr ++ ("Failed to open file: " ++ path ++ "\n") ∧
    ((Obj.errorObserver path).onError message w).files = w.files ∧
    ((Obj.errorObserver path).onError message w).stdout = w.stdout ∧
    (∀ (heap : Heap) (pre post : List Ptr) (o : Ptr), o ≠ nullptr →
      heap o = Obj.errorObserver path →
      Logger.error heap { observers_ := pre ++ o :: post } message w =
        Logger.error heap { observers_ := post } message
          (invoke heap o Slot.onError message
            (Logger.error heap { observers_ := pre } message w)) ∧
      (invoke heap o Slot.onError message
          (Logger.error heap { observers_ := pre } message w)).stderr =
        (Logger.error heap { observers_ := pre } message w).stderr ++
          ("Failed to open file: " ++ path ++ "\n") ∧
      callsOf (Logger.error heap { observers_ := pre ++ o :: post } message w).trace =
        callsOf (Logger.error heap { observers_ := pre } message w).trace ++
          Event.call o Slot.onError message ::
            (nonNull post).map (fun q => Event.call q Slot.onError message)) := by
  refine ⟨?_, ?_, ?_, ?_⟩
  · rw [onError_fail path message w hfail]
    rfl
  · rw [onError_fail path message w hfail]
    rfl
  · rw [onError_fail path message w hfail]
    rfl
  · intro heap pre post o ho hobj
    have hsplit : Logger.error heap { observers_ := pre ++ o :: post } message w =
        Logger.error heap { observers_ := post } message
          (invoke heap o Slot.onError message
            (Logger.error heap { observers_ := pre } message w)) := by
      simp only [Logger.error]
      rw [notifyLoop_append]
      simp [notifyLoop, ho]
    have hcan : (Logger.error heap { observers_ := pre } message w).canOpen path = false := by
      simp only [Logger.error]
      rw [notifyLoop_canOpen]
      exact hfail
    refine ⟨hsplit, ?_, ?_⟩
    · simp [invoke, hobj, Obj.handle, Obj.onError, hcan, World.writeStderr]
    · rw [hsplit]
      simp only [Logger.error]
      rw [notifyLoop_callsOf, invoke_callsOf]
      simp

/-- Witness of C8: the ErrorObserver on the locked path stands first, the
ErrorObserver on `out.txt` after it; `error("x")` reports the failure on
standard error and still appends to `out.txt`. -/
theorem errorObserver_open_failure_witness :
    demoWorld.canOpen lockedPath = false ∧
    (Logger.error demoHeap { observers_ := [4, 2] } "x" demoWorld).stderr =
      "Failed to open file: /locked/log.txt\n" ∧
    (Logger.error demoHeap { observers_ := [4, 2] } "x" demoWorld).files "out.txt" =
      some "X\nError: x\n" ∧
    callsOf (Logger.error demoHeap { observers_ := [4, 2] } "x" demoWorld).trace =
      [Event.call 4 Slot.onError "x", Event.call 2 Slot.onError "x"] :=
  ⟨by decide, by decide, by decide,
    ((errorObserver_open_failure lockedPath "x" demoWorld (by decide)).2.2.2
      demoHeap [] [2] 4 (by decide) (by decide)).2.2.trans (by decide)⟩

/-- C9 as stated fails in its file part: a path that opens need not keep
what is written to it. In the scenario world `/dev/null` opens and is as
empty after `onFatalError("x")` as before; the path on the full disk opens,
its file is created, and the line never reaches it; and on `/dev/stderr` the
line lands a second time on standard error, no file holding it. -/
theorem fatalErrorObserver_onFatalError_counterexample :
    (demoWorld.canOpen "/dev/null" = true ∧
      ((Obj.fatalErrorObserver "/dev/null").onFatalError "x" demoWorld).files "/dev/null" =
        some "" ∧
      ((Obj.fatalErrorObserver "/dev/null").onFatalError "x" demoWorld).files "/dev/null" ≠
        some ((demoWorld.files "/dev/null").getD "" ++ ("Fatal Error: " ++ "x" ++ "\n"))) ∧
    (demoWorld.canOpen fullPath = true ∧
      ((Obj.fatalErrorObserver fullPath).onFatalError "x" demoWorld).files fullPath =
        some "" ∧
      ((Obj.fatalErrorObserver fullPath).onFatalError "x" demoWorld).files fullPath ≠
        some ((demoWorld.files fullPath).getD "" ++ ("Fatal Error: " ++ "x" ++ "\n"))) ∧
    (demoWorld.canOpen "/dev/stderr" = true ∧
      ((Obj.fatalErrorObserver "/dev/stderr").onFatalError "x" demoWorld).files "/dev/stderr" =
        none ∧
      ((Obj.fatalErrorObserver "/dev/stderr").onFatalError "x" demoWorld).stderr =
        "Fatal Error: x\nFatal Error: x\n") := by
  decide

/-- C9 (amended): `FatalErrorObserver(path).onFatalError(m)` writes
`"Fatal Error: " ++ m ++ "\n"` to standard error before anything else,
whether or not `path` can be opened. When `path` can be opened it then
inserts the same line into the stream open on `path`; when moreover `path`
leads to a regular file and the insertion goes through, the file at `path`
(created when absent) holds what it held followed by that line, standard error
has received the one line, and standard output and every path that leads
elsewhere are as they were. When `path` cannot be opened it then writes
`"Failed to open file: " ++ path ++ "\n"` to standard error and no file
changes. `fatalError(m)` on a Logger holding only such an observer has the
same effect on the streams and the files. -/
theorem fatalErrorObserver_onFatalError (path message : String) (w : World) :
    (∃ rest, ((Obj.fatalErrorObserver path).onFatalError message w).trace =
      w.trace ++ Event.cerr ("Fatal Error: " ++ message ++ "\n") :: rest) ∧
    (w.canOpen path = true →
      ((Obj.fatalErrorObserver path).onFatalError message w).trace =
        w.trace ++ [Event.cerr ("Fatal Error: " ++ message ++ "\n"),
          Event.file path ("Fatal Error: " ++ message ++ "\n")] ∧
      ∀ file, w.target path = Target.regular file → w.writeOk path = true →
        ((Obj.fatalErrorObserver path).onFatalError message w).stderr =
          w.stderr ++ ("Fatal Error: " ++ message ++ "\n") ∧
        ((Obj.fatalErrorObserver path).onFatalError message w).files path =
          some ((w.files path).getD "" ++ ("Fatal Error: " ++ message ++ "\n")) ∧
        (∀ q, w.target q ≠ Target.regular file →
          ((Obj.fatalErrorObserver path).onFatalError message w).files q = w.files q) ∧
        ((Obj.fatalErrorObserver path).onFatalError message w).stdout = w.stdout) ∧
    (w.canOpen path = false →
      ((Obj.fatalErrorObserver path).onFatalError message w).trace =
        w.trace ++ [Event.cerr ("Fatal Error: " ++ message ++ "\n"),
          Event.cerr ("Failed to open file: " ++ path ++ "\n")] ∧
      ((Obj.fatalErrorObserver path).onFatalError message w).stderr =
        w.stderr ++ ("Fatal Error: " ++ message ++ "\n") ++
          ("Failed to open file: " ++ path ++ "\n") ∧
      ((Obj.fatalErrorObserver path).onFatalError message w).files = w.files ∧
      ((Obj.fatalErrorObserver path).onFatalError message w).stdout = w.stdout) ∧
    (∀ (heap : Heap) (o : Ptr), o ≠ nullptr → heap o = Obj.fatalErrorObserver path →
      (Logger.fatalError heap { observers_ := [o] } message w).stderr =
        ((Obj.fatalErrorObserver path).onFatalError message w).stderr ∧
      (Logger.fatalError heap { observers_ := [o] } message w).files =
        ((Obj.fatalErrorObserver path).onFatalError message w).files ∧
      (Logger.fatalError heap { observers_ := [o] } message w).stdout =
        ((Obj.fatalErrorObserver path).onFatalError message w).stdout) := by
  have htrace_open : w.canOpen path = true →
      ((Obj.fatalErrorObserver path).onFatalError message w).trace =
        w.trace ++ [Event.cerr ("Fatal Error: " ++ message ++ "\n"),
          Event.file path ("Fatal Error: " ++ message ++ "\n")] := by
    intro hopen
    rw [onFatalError_open path message w hopen]
    simp [World.writeStderr]
  have htrace_fail : w.canOpen path = false →
      ((Obj.fatalErrorObserver path).onFatalError message w).trace =
        w.trace ++ [Event.cerr ("Fatal Error: " ++ message ++ "\n"),
          Event.cerr ("Failed to open file: " ++ path ++ "\n")] := by
    intro hfail
    rw [onFatalError_fail path message w hfail]
    simp [World.writeStderr]
  refine ⟨?_, ?_, ?_, ?_⟩
  · cases hc : w.canOpen path
    · exact ⟨_, htrace_fail hc⟩
    · exact ⟨_, htrace_open hc⟩
  · intro hopen
    refine ⟨htrace_open hopen, ?_⟩
    intro file hfile hwrite
    obtain ⟨h1, h2, h3, h4⟩ :=
      openWrite_regular (w.writeStderr ("Fatal Error: " ++ message ++ "\n")) path
        ("Fatal Error: " ++ message ++ "\n") file hfile hwrite
    rw [← onFatalError_open path message w hopen] at h1 h2 h3 h4
    exact ⟨h4, h1, h2, h3⟩
  · intro hfail
    refine ⟨htrace_fail hfail, ?_, ?_, ?_⟩
    · rw [onFatalError_fail path message w hfail]
      rfl
    · rw [onFatalError_fail path message w hfail]
      rfl
    · rw [onFatalError_fail path message w hfail]
      rfl
  · intro heap o ho hobj
    obtain ⟨e1, e2, e3⟩ := notifyLoop_single_effect heap Slot.onFatalError message o w ho
    rw [hobj] at e1 e2 e3
    exact ⟨e2, e3, e1⟩

/-- Witness of C9: with `fatal.txt` absent, `fatalError("die")` on a Logger
holding only the FatalErrorObserver on `fatal.txt` leaves standard error and
`fatal.txt` both holding `Fatal Error: die\n`; on the locked path the
standard error line is followed by the failure line. -/
theorem fatalErrorObserver_onFatalError_witness :
    demoWorld.canOpen "fatal.txt" = true ∧
    demoWorld.target "fatal.txt" = Target.regular "fatal.txt" ∧
    demoWorld.writeOk "fatal.txt" = true ∧
    demoWorld.files "fatal.txt" = none ∧
    (Logger.fatalError demoHeap { observers_ := [3] } "die" demoWorld).stderr =
      "Fatal Error: die\n" ∧
    (Logger.fatalError demoHeap { observers_ := [3] } "die" demoWorld).files "fatal.txt" =
      some "Fatal Error: die\n" ∧
    demoWorld.canOpen lockedPath = false ∧
    ((Obj.fatalErrorObserver lockedPath).onFatalError "die" demoWorld).stderr =
      "Fatal Error: die\nFailed to open file: /locked/log.txt\n" :=
  ⟨by decide, by decide, by decide, by decide,
    (((fatalErrorObserver_onFatalError "fatal.txt" "die" demoWorld).2.2.2
        demoHeap 3 (by decide) (by decide)).1.trans
      ((((fatalErrorObserver_onFatalError "fatal.txt" "die" demoWorld).2.1 (by decide)).2
        "fatal.txt" (by decide) (by decide)).1)).trans (by decide),
    (congrFun ((fatalErrorObserver_onFatalError "fatal.txt" "die" demoWorld).2.2.2
        demoHeap 3 (by decide) (by decide)).2.1 "fatal.txt").trans
      ((((fatalErrorObserver_onFatalError "fatal.txt" "die" demoWorld).2.1 (by decide)).2
        "fatal.txt" (by decide) (by decide)).2.1.trans (by decide)),
    by decide,
    ((fatalErrorObserver_onFatalError lockedPath "die" demoWorld).2.2.1 (by decide)).2.1.trans
      (by decide)⟩

theorem invoke_onWarning_warningObserver (heap : Heap) (o : Ptr) (message : String) (w : World)
    (hobj : heap o = Obj.warningObserver) :
    (invoke heap o Slot.onWarning message w).stdout = w.stdout ++ ("Warning: " ++ message ++ "\n") ∧
    (invoke heap o Slot.onWarning message w).stderr = w.stderr ∧
    (invoke heap o Slot.onWarning message w).files = w.files := by
  refine ⟨?_, ?_, ?_⟩
  · simp [invoke, hobj, Obj.handle, Obj.onWarning, World.writeStdout]
  · simp [invoke, hobj, Obj.handle, Obj.onWarning, World.writeStdout]
  · simp only [invoke, hobj, Obj.handle, Obj.onWarning, World.writeStdout]
    rfl

theorem invoke_onWarning_other (heap : Heap) (o : Ptr) (message : String) (w : World)
    (hobj : heap o ≠ Obj.warningObserver) :
    (invoke heap o Slot.onWarning message w).stdout = w.stdout ∧
    (invoke heap o Slot.onWarning message w).stderr = w.stderr ∧
    (invoke heap o Slot.onWarning message w).files = w.files := by
  cases hk : heap o with
  | warningObserver => exact absurd hk hobj
  | base =>
    rw [invoke, hk]
    exact ⟨rfl, rfl, rfl⟩
  | errorObserver q =>
    rw [invoke, hk]
    exact ⟨rfl, rfl, rfl⟩
  | fatalErrorObserver q =>
    rw [invoke, hk]
    exact ⟨rfl, rfl, rfl⟩

theorem notifyLoop_onWarning (heap : Heap) (message : String) (obs : List Ptr) :
    ∀ w : World, (∀ o ∈ obs, o ≠ nullptr) →
      (notifyLoop heap Slot.onWarning message obs w).stdout =
        (List.replicate (obs.countP (fun o => decide (heap o = Obj.warningObserver)))
          ("Warning: " ++ message ++ "\n")).foldl (fun acc line => acc ++ line) w.stdout ∧
      (notifyLoop heap Slot.onWarning message obs w).stderr = w.stderr ∧
      (notifyLoop heap Slot.onWarning message obs w).files = w.files := by
  induction obs with
  | nil => intro w _; simp [notifyLoop]
  | cons o rest ih =>
    intro w hall
    have ho : o ≠ nullptr := hall o (List.mem_cons_self _ _)
    have hrest : ∀ q ∈ rest, q ≠ nullptr := fun q hq => hall q (List.mem_cons_of_mem _ hq)
    simp only [notifyLoop, ne_eq, ho, not_false_eq_true, if_true]
    obtain ⟨h1, h2, h3⟩ := ih (invoke heap o Slot.onWarning message w) hrest
    by_cases hk : heap o = Obj.warningObserver
    · obtain ⟨i1, i2, i3⟩ := invoke_onWarning_warningObserver heap o message w hk
      rw [h1, h2, h3, i1, i2, i3, List.countP_cons_of_pos _ _ (by simpa using hk)]
      exact ⟨rfl, rfl, rfl⟩
    · obtain ⟨i1, i2, i3⟩ := invoke_onWarning_other heap o message w hk
      rw [h1, h2, h3, i1, i2, i3, List.countP_cons_of_neg _ _ (by simpa using hk)]
      exact ⟨rfl, rfl, rfl⟩

/-- C10: on a collection made of WarningObserver, ErrorObserver and
FatalErrorObserver instances, `warning(m)` appends to standard output the line
`"Warning: " ++ m ++ "\n"` once per registered WarningObserver and nothing
else, leaves standard error as it was and leaves every file as it was: the
`onWarning` that ErrorObserver and FatalErrorObserver inherit does nothing. -/
theorem warning_only_reaches_warningObservers (heap : Heap) (self : Logger) (message : String)
    (w : World)
    (hkinds : ∀ o ∈ self.observers_, o ≠ nullptr ∧
      (heap o = Obj.warningObserver ∨ (∃ path, heap o = Obj.errorObserver path) ∨
        ∃ path, heap o = Obj.fatalErrorObserver path)) :
    (Logger.warning heap self message w).stdout =
      (List.replicate
          (self.observers_.countP (fun o => decide (heap o = Obj.warningObserver)))
          ("Warning: " ++ message ++ "\n")).foldl (fun acc line => acc ++ line) w.stdout ∧
    (Logger.warning heap self message w).stderr = w.stderr ∧
    (Logger.warning heap self message w).files = w.files :=
  notifyLoop_onWarning heap message self.observers_ w (fun o ho => (hkinds o ho).1)

/-- Witness of C10: with the WarningObserver and the ErrorObserver on
`out.txt` registered, `warning("hello")` leaves standard output equal to
`Warning: hello\n`, standard error empty and `out.txt` as it was. -/
theorem warning_only_reaches_warningObservers_witness :
    (∀ o ∈ ({ observers_ := [1, 2] } : Logger).observers_, o ≠ nullptr ∧
      (demoHeap o = Obj.warningObserver ∨ (∃ path, demoHeap o = Obj.errorObserver path) ∨
        ∃ path, demoHeap o = Obj.fatalErrorObserver path)) ∧
    (Logger.warning demoHeap { observers_ := [1, 2] } "hello" demoWorld).stdout =
      "Warning: hello\n" ∧
    (Logger.warning demoHeap { observers_ := [1, 2] } "hello" demoWorld).stderr = "" ∧
    (Logger.warning demoHeap { observers_ := [1, 2] } "hello" demoWorld).files "out.txt" =
      some "X\n" :=
  have hk : ∀ o ∈ ({ observers_ := [1, 2] } : Logger).observers_, o ≠ nullptr ∧
      (demoHeap o = Obj.warningObserver ∨ (∃ path, demoHeap o = Obj.errorObserver path) ∨
        ∃ path, demoHeap o = Obj.fatalErrorObserver path) := by
    intro o ho
    simp only [List.mem_cons, List.mem_singleton, List.not_mem_nil, or_false] at ho
    rcases ho with rfl | rfl
    · exact ⟨by decide, Or.inl (by decide)⟩
    · exact ⟨by decide, Or.inr (Or.inl ⟨"out.txt", by decide⟩)⟩
  ⟨hk,
    (warning_only_reaches_warningObservers demoHeap { observers_ := [1, 2] } "hello"
      demoWorld hk).1.trans (by decide),
    (warning_only_reaches_warningObservers demoHeap { observers_ := [1, 2] } "hello"
      demoWorld hk).2.1.trans (by decide),
    (congrFun (warning_only_reaches_warningObservers demoHeap { observers_ := [1, 2] } "hello"
      demoWorld hk).2.2 "out.txt").trans (by decide)⟩

end Observer
